import Mathlib

/-!
Shallow embedding of the frame-extraction pipeline of `server2.py`
(HoopLab repository) and verification of its specification claims.

The pipeline decodes a video with OpenCV, selects frames (exhaustive mode
with a caller-supplied `skip_frames`, or fast mode with a computed skip
factor bounded by `max_frames`), JPEG-encodes them, and packages them with
a `metadata.json` entry into a zip archive.

Modelling decisions:
* A raw decoded frame is abstracted as a natural number; JPEG encoding
  (`cv2.imencode` with quality parameters) is an abstract function
  `enc : Frame → Bytes` since the claims never inspect pixel data.
* The decoder (`cv2.VideoCapture`) is a list of read results:
  `some f` means `cap.read()` returns `(True, f)`, `none` means it returns
  `(False, _)` (end of stream or a mid-stream decode failure).  Reading
  past the end of the list also returns `(False, _)`.
* An input that `cv2.VideoCapture` cannot open (`not cap.isOpened()`) is
  modelled as `none : Option Video`.
* Python `%` and `//` on ints are `Int.fmod` / `Int.fdiv` (both floor
  style, matching Python), with an explicit check for the
  `ZeroDivisionError` Python raises on a zero divisor.
* The `try/finally` block that deletes the temporary on-disk copy of the
  upload always runs, so every request result records
  `tempFileDeleted = true` on every exit path, mirroring the source.
* JSON metadata is modelled structurally (`Json` below) rather than as a
  serialized string.
-/

/-- A raw decoded frame (stand-in for the numpy pixel array). -/
abbrev Frame : Type := Nat

/-- An encoded JPEG payload (stand-in for the byte buffer). -/
abbrev Bytes : Type := Nat

/-- Structural model of the JSON values written to `metadata.json`. -/
inductive Json where
  | num (q : ℚ)
  | str (s : String)
  | arr (xs : List Json)
  | obj (fields : List (String × Json))

/-- Key lookup in a JSON object field list (first match wins, as in a
Python dict with distinct keys). -/
def jsonLookup : List (String × Json) → String → Option Json
  | [], _ => none
  | (k, v) :: rest, key => if k = key then some v else jsonLookup rest key

/-- Lookup of a key in a JSON object; `none` on non-objects. -/
def Json.lookup : Json → String → Option Json
  | .obj fields, key => jsonLookup fields key
  | _, _ => none

/-- Indexing into a JSON array; `none` on non-arrays. -/
def Json.index : Json → ℕ → Option Json
  | .arr xs, i => xs.get? i
  | _, _ => none

/-- A zip entry payload: JPEG bytes for frame entries, a JSON document for
`metadata.json`. -/
inductive Payload where
  | bytes (data : Bytes)
  | jsonStr (j : Json)

/-- The decoder state obtained from a successfully opened video: the
sequence of `cap.read()` results plus the stream properties reported by
`cap.get` (`CAP_PROP_FPS`, `CAP_PROP_FRAME_COUNT`, width, height). -/
structure Video where
  reads : List (Option Frame)
  fps : ℚ
  total_frames : ℤ
  width : ℤ
  height : ℤ

/-- Errors a request can surface: the `fastapi.HTTPException` raised when
the video cannot be opened, or Python's `ZeroDivisionError` from unguarded
`%` / `//` arithmetic. -/
inductive PyError where
  | httpException (status : ℕ) (detail : String)
  | zeroDivisionError

/-- Outcome of one request: the zip entries (or the error), together with
whether the temporary on-disk copy of the upload was deleted. -/
structure RequestResult where
  result : Except PyError (List (String × Payload))
  tempFileDeleted : Bool

/-- Zero-padded decimal rendering, as Python's `"%0Nd"` format. -/
def zeroPad (width n : ℕ) : String :=
  let s := toString n
  String.mk (List.replicate (width - s.length) '0') ++ s

/-- `f"frame_{i:06d}.jpg"` — exhaustive-mode frame entry name. -/
def frameFilename6 (i : ℕ) : String := "frame_" ++ zeroPad 6 i ++ ".jpg"

/-- `f"frame_{i:04d}.jpg"` — fast-mode frame entry name. -/
def frameFilename4 (i : ℕ) : String := "frame_" ++ zeroPad 4 i ++ ".jpg"

/-- `process_frame_batch`: JPEG-encode a batch of `(kept_index, frame)`
pairs in order, producing `(filename, bytes)` pairs.  The source iterates
the batch sequentially and appends results in the same order. -/
def process_frame_batch (enc : Frame → Bytes) (frames : List (ℕ × Frame)) :
    List (String × Bytes) :=
  frames.map (fun p => (frameFilename6 p.1, enc p.2))

/-- `loop.run_in_executor(executor, f, x)` awaited: returns `f x`.  The
pool's worker count influences scheduling only, never the returned
value, because the whole batch is a single submitted task. -/
def run_in_executor {α β : Type} (numWorkers : ℕ) (f : α → β) (x : α) : β :=
  f x

/-- The frames the `while True: ret, frame = cap.read()` loop actually
processes: the longest prefix of successful reads (the loop breaks at the
first `ret == False`). -/
def decodedFrames : List (Option Frame) → List Frame
  | [] => []
  | none :: _ => []
  | some f :: rest => f :: decodedFrames rest

/-- The extraction loop of `extract_frames_streaming`: walks the decoded
frames keeping those with `frame_idx % (skip_frames + 1) == 0`, tagging
each kept frame with the running `extracted_count`, accumulating a batch
that is flushed through the executor to the zip whenever it reaches
`batchSize`, with a final flush of the remainder.  Evaluating `%` with a
zero modulus raises `ZeroDivisionError`, as in Python. -/
def extractLoop (enc : Frame → Bytes) (numWorkers batchSize : ℕ)
    (skipPlus1 : ℤ) :
    List Frame → ℕ → ℕ → List (ℕ × Frame) →
    Except PyError (List (String × Bytes) × ℕ)
  | [], _, extractedCount, frameBatch =>
      .ok (run_in_executor numWorkers (process_frame_batch enc) frameBatch,
           extractedCount)
  | frame :: rest, frameIdx, extractedCount, frameBatch =>
      if skipPlus1 = 0 then .error .zeroDivisionError
      else if Int.fmod frameIdx skipPlus1 = 0 then
        if batchSize ≤ frameBatch.length + 1 then
          match extractLoop enc numWorkers batchSize skipPlus1 rest
              (frameIdx + 1) (extractedCount + 1) [] with
          | .error e => .error e
          | .ok (entries, c) =>
              .ok (run_in_executor numWorkers (process_frame_batch enc)
                     (frameBatch ++ [(extractedCount, frame)]) ++ entries, c)
        else
          extractLoop enc numWorkers batchSize skipPlus1 rest (frameIdx + 1)
            (extractedCount + 1) (frameBatch ++ [(extractedCount, frame)])
      else
        extractLoop enc numWorkers batchSize skipPlus1 rest (frameIdx + 1)
          extractedCount frameBatch

/-- The metadata dict written by `extract_frames_streaming`. -/
def streamingMetadata (v : Video) (extractedCount : ℕ) (skip_frames : ℤ) :
    Json :=
  .obj [("fps", .num v.fps),
        ("total_frames", .num (v.total_frames : ℚ)),
        ("extracted_frames", .num (extractedCount : ℚ)),
        ("width", .num (v.width : ℚ)),
        ("height", .num (v.height : ℚ)),
        ("skip_frames", .num (skip_frames : ℚ))]

/-- `extract_frames_streaming` (exhaustive mode): open the video (HTTP 400
if it cannot be opened), run the extraction loop over the decoded frames,
then append the `metadata.json` entry last.  The temp file is deleted in
`finally` on every path. -/
def extract_frames_streaming (enc : Frame → Bytes)
    (numWorkers batchSize : ℕ) (input : Option Video) (skip_frames : ℤ) :
    RequestResult :=
  match input with
  | none =>
      ⟨.error (.httpException 400 "Could not open video file"), true⟩
  | some v =>
      match extractLoop enc numWorkers batchSize (skip_frames + 1)
          (decodedFrames v.reads) 0 0 [] with
      | .error e => ⟨.error e, true⟩
      | .ok (frameEntries, extractedCount) =>
          ⟨.ok ((frameEntries.map (fun p => (p.1, Payload.bytes p.2))) ++
                [("metadata.json",
                  Payload.jsonStr
                    (streamingMetadata v extractedCount skip_frames))]),
           true⟩

/-- `skip_factor = max(1, total_frames // max_frames)` of the fast mode
(Python `//` is floor division). -/
def fast_skip_factor (total_frames max_frames : ℤ) : ℤ :=
  max 1 (Int.fdiv total_frames max_frames)

/-- The fast-mode loop: each iteration performs one `cap.read()` (counted
in the third component), breaks when the read fails or
`extracted_count >= max_frames`, otherwise keeps the frame when
`frame_idx % skip_factor == 0`, writing its entry immediately. -/
def fastLoop (enc : Frame → Bytes) (skipFactor max_frames : ℤ) :
    List (Option Frame) → ℕ → ℕ →
    List (String × Bytes) × ℕ × ℕ
  | [], _, extractedCount => ([], extractedCount, 1)
  | none :: _, _, extractedCount => ([], extractedCount, 1)
  | some frame :: rest, frameIdx, extractedCount =>
      if max_frames ≤ (extractedCount : ℤ) then ([], extractedCount, 1)
      else if Int.fmod frameIdx skipFactor = 0 then
        let r := fastLoop enc skipFactor max_frames rest (frameIdx + 1)
          (extractedCount + 1)
        ((frameFilename4 extractedCount, enc frame) :: r.1, r.2.1, r.2.2 + 1)
      else
        let r := fastLoop enc skipFactor max_frames rest (frameIdx + 1)
          extractedCount
        (r.1, r.2.1, r.2.2 + 1)

/-- One record of the fast-mode metadata `frames` list comprehension. -/
def fastFrameRecord (fps : ℚ) (skipFactor : ℤ) (i : ℕ) : Json :=
  .obj [("frame_index", .num (i : ℚ)),
        ("timestamp",
         .num (if 0 < fps then ((i : ℚ) * (skipFactor : ℚ)) / fps else 0)),
        ("filename", .str (frameFilename4 i))]

/-- The metadata dict written by `extract_frames_fast`. -/
def fastMetadata (v : Video) (extractedCount : ℕ) (skipFactor : ℤ) : Json :=
  .obj [("fps", .num v.fps),
        ("total_frames", .num (v.total_frames : ℚ)),
        ("extracted_frames", .num (extractedCount : ℚ)),
        ("width", .num (v.width : ℚ)),
        ("height", .num (v.height : ℚ)),
        ("frames",
         .arr ((List.range extractedCount).map
           (fastFrameRecord v.fps skipFactor)))]

/-- `extract_frames_fast` (bounded mode): open the video (HTTP 400 if it
cannot be opened), compute `skip_factor = max(1, total_frames //
max_frames)` — `ZeroDivisionError` when `max_frames == 0` — run the fast
loop, then append `metadata.json` last.  Temp file deleted on every
path. -/
def extract_frames_fast (enc : Frame → Bytes) (input : Option Video)
    (max_frames : ℤ) : RequestResult :=
  match input with
  | none =>
      ⟨.error (.httpException 400 "Could not open video file"), true⟩
  | some v =>
      if max_frames = 0 then ⟨.error .zeroDivisionError, true⟩
      else
        let skipFactor := fast_skip_factor v.total_frames max_frames
        let r := fastLoop enc skipFactor max_frames v.reads 0 0
        ⟨.ok ((r.1.map (fun p => (p.1, Payload.bytes p.2))) ++
              [("metadata.json",
                Payload.jsonStr (fastMetadata v r.2.1 skipFactor))]),
         true⟩

/-- Number of `cap.read()` calls `extract_frames_fast` performs on an
openable video with `max_frames ≠ 0`. -/
def fastReadCalls (enc : Frame → Bytes) (v : Video) (max_frames : ℤ) : ℕ :=
  (fastLoop enc (fast_skip_factor v.total_frames max_frames) max_frames
    v.reads 0 0).2.2

/-- Modelled from the spec (section 4.2, Budget policy), which is not an
entry point of `src/`: the number of decoder pulls a Selector that stops
pulling further frames the moment `kept_count == max_frames` would
perform — "the decoder is simply not asked to decode more data". -/
def specBudgetReadCalls (skipFactor max_frames : ℤ) :
    List (Option Frame) → ℕ → ℕ → ℕ
  | reads, frameIdx, keptCount =>
    if max_frames ≤ (keptCount : ℤ) then 0
    else
      match reads with
      | [] => 1
      | none :: _ => 1
      | some _ :: rest =>
          if Int.fmod frameIdx skipFactor = 0 then
            1 + specBudgetReadCalls skipFactor max_frames rest (frameIdx + 1)
                  (keptCount + 1)
          else
            1 + specBudgetReadCalls skipFactor max_frames rest (frameIdx + 1)
                  keptCount

/-- The `(source_index, frame)` pairs the skip-factor policy keeps,
starting the source index at `frameIdx`. -/
def selectKept (skipPlus1 : ℤ) : ℕ → List Frame → List (ℕ × Frame)
  | _, [] => []
  | frameIdx, f :: rest =>
      if Int.fmod frameIdx skipPlus1 = 0 then
        (frameIdx, f) :: selectKept skipPlus1 (frameIdx + 1) rest
      else selectKept skipPlus1 (frameIdx + 1) rest

/-- Pair each list element with a counter starting at `k`. -/
def enumFrom {α : Type} : ℕ → List α → List (ℕ × α)
  | _, [] => []
  | k, a :: rest => (k, a) :: enumFrom (k + 1) rest

/-- Ceiling division on naturals, `ceil (a / b)`. -/
def ceilNat (a b : ℕ) : ℕ := (a + b - 1) / b

/-- The metadata document of a finished request, read off the last zip
entry. -/
def metadataOf (r : RequestResult) : Option Json :=
  match r.result with
  | .ok entries =>
      match entries.getLast? with
      | some (_, Payload.jsonStr j) => some j
      | _ => none
  | .error _ => none

/-- The frame entries of a finished request (all entries but the final
metadata one); `[]` on a failed request. -/
def frameEntriesOf (r : RequestResult) : List (String × Payload) :=
  match r.result with
  | .ok entries => entries.dropLast
  | .error _ => []

/-! ### Basic lemmas about the embedding -/

lemma fmod_natCast_eq_zero_iff (idx m : ℕ) :
    Int.fmod (idx : ℤ) (m : ℤ) = 0 ↔ idx % m = 0 := by
  rw [← Int.ofNat_fmod]
  exact Int.natCast_eq_zero

lemma enumFrom_length {α : Type} :
    ∀ (l : List α) (k : ℕ), (enumFrom k l).length = l.length := by
  intro l
  induction l with
  | nil => intro k; simp [enumFrom]
  | cons a rest ih => intro k; simp [enumFrom, ih]

lemma enumFrom_map_fst {α : Type} :
    ∀ (l : List α) (k : ℕ),
    (enumFrom k l).map Prod.fst = (List.range l.length).map (fun j => k + j) := by
  intro l
  induction l with
  | nil => intro k; simp [enumFrom]
  | cons a rest ih =>
      intro k
      simp only [enumFrom, List.map_cons, ih, List.length_cons,
        List.range_succ_eq_map, List.map_map, List.cons.injEq]
      refine ⟨by omega, List.map_congr_left fun x _ => ?_⟩
      simp [Function.comp]
      omega

lemma enumFrom_zero_map_fst {α : Type} (l : List α) :
    (enumFrom 0 l).map Prod.fst = List.range l.length := by
  rw [enumFrom_map_fst]
  simp

lemma selectKept_map_fst (m : ℕ) :
    ∀ (frames : List Frame) (idx : ℕ),
    (selectKept (m : ℤ) idx frames).map Prod.fst =
      ((List.range frames.length).map (fun j => idx + j)).filter
        (fun i => i % m == 0) := by
  intro frames
  induction frames with
  | nil => intro idx; simp [selectKept]
  | cons f rest ih =>
      intro idx
      have hmap : (List.range rest.length).map ((fun j => idx + j) ∘ Nat.succ) =
          (List.range rest.length).map (fun j => (idx + 1) + j) :=
        List.map_congr_left fun x _ => by simp [Function.comp]; omega
      by_cases h : idx % m = 0
      · simp [selectKept, fmod_natCast_eq_zero_iff, h, List.range_succ_eq_map,
          List.map_map, hmap, List.filter_cons, ih]
      · simp [selectKept, fmod_natCast_eq_zero_iff, h, List.range_succ_eq_map,
          List.map_map, hmap, List.filter_cons, ih]

lemma selectKept_length (m : ℕ) (frames : List Frame) (idx : ℕ) :
    (selectKept (m : ℤ) idx frames).length =
      (((List.range frames.length).map (fun j => idx + j)).filter
        (fun i => i % m == 0)).length := by
  rw [← selectKept_map_fst m frames idx, List.length_map]

lemma length_filter_range_mod (m : ℕ) (hm : 0 < m) :
    ∀ T : ℕ,
    ((List.range T).filter (fun i => i % m == 0)).length = ceilNat T m := by
  intro T
  induction T with
  | zero =>
      simp only [List.range_zero, List.filter_nil, List.length_nil, ceilNat]
      exact (Nat.div_eq_of_lt (by omega)).symm
  | succ T ih =>
      rw [List.range_succ, List.filter_append, List.length_append, ih]
      have hceil : ceilNat (T + 1) m = T / m + 1 := by
        unfold ceilNat
        have : T + 1 + m - 1 = T + m := by omega
        rw [this, Nat.add_div_right T hm]
      by_cases h : T % m = 0
      · obtain ⟨q, rfl⟩ : ∃ q, T = m * q := ⟨T / m, (Nat.div_mul_cancel
          (Nat.dvd_of_mod_eq_zero h)).symm.trans (Nat.mul_comm _ _)⟩
        have h1 : ceilNat (m * q) m = q := by
          unfold ceilNat
          have : m * q + m - 1 = m * q + (m - 1) := by omega
          rw [this, Nat.mul_add_div hm, Nat.div_eq_of_lt (by omega)]
          omega
        have h2 : m * q / m + 1 = q + 1 := by
          rw [Nat.mul_div_cancel_left q hm]
        simp [h, hceil, h1, h2]
      · have hr : 1 ≤ T % m := Nat.one_le_iff_ne_zero.mpr h
        have hrm : T % m < m := Nat.mod_lt T hm
        have h1 : ceilNat T m = T / m + 1 := by
          unfold ceilNat
          have hT : T = m * (T / m) + T % m := (Nat.div_add_mod' T m).symm.trans
            (by rw [Nat.mul_comm])
          calc (T + m - 1) / m = (m * (T / m) + (T % m + m - 1)) / m := by
                congr 1
                omega
            _ = T / m + (T % m + m - 1) / m := by rw [Nat.mul_add_div hm]
            _ = T / m + ((T % m - 1) + m) / m := by
                congr 2
                omega
            _ = T / m + ((T % m - 1) / m + 1) := by rw [Nat.add_div_right _ hm]
            _ = T / m + 1 := by
                have hz : (T % m - 1) / m = 0 := Nat.div_eq_of_lt (by omega)
                rw [hz]
        simp [h, hceil, h1]

lemma decodedFrames_map_some : ∀ l : List Frame,
    decodedFrames (l.map some) = l := by
  intro l
  induction l with
  | nil => simp [decodedFrames]
  | cons a rest ih => simp [decodedFrames, ih]

lemma decodedFrames_append_none :
    ∀ (g : List Frame) (rest : List (Option Frame)),
    decodedFrames (g.map some ++ none :: rest) = g := by
  intro g
  induction g with
  | nil => intro rest; simp [decodedFrames]
  | cons a gs ih => intro rest; simp [decodedFrames, ih]

/-! ### Canonical form of the exhaustive-mode pipeline -/

lemma extractLoop_eq (enc : Frame → Bytes) (numWorkers batchSize : ℕ)
    (skipPlus1 : ℤ) (hs : skipPlus1 ≠ 0) :
    ∀ (frames : List Frame) (frameIdx extractedCount : ℕ)
      (frameBatch : List (ℕ × Frame)),
    extractLoop enc numWorkers batchSize skipPlus1 frames frameIdx
        extractedCount frameBatch =
      .ok (process_frame_batch enc
             (frameBatch ++
               enumFrom extractedCount
                 ((selectKept skipPlus1 frameIdx frames).map Prod.snd)),
           extractedCount + (selectKept skipPlus1 frameIdx frames).length) := by
  intro frames
  induction frames with
  | nil =>
      intro idx ext batch
      simp [extractLoop, selectKept, enumFrom, run_in_executor]
  | cons f rest ih =>
      intro idx ext batch
      by_cases hk : Int.fmod (idx : ℤ) skipPlus1 = 0
      · by_cases hb : batchSize ≤ batch.length + 1
        · simp only [extractLoop, if_neg hs, if_pos hk, if_pos hb, ih]
          simp [process_frame_batch, selectKept, hk, enumFrom,
            run_in_executor, List.map_append]
          omega
        · simp only [extractLoop, if_neg hs, if_pos hk, if_neg hb, ih]
          simp [process_frame_batch, selectKept, hk, enumFrom,
            run_in_executor, List.map_append]
          omega
      · simp only [extractLoop, if_neg hs, if_neg hk, ih]
        simp [selectKept, hk]

lemma streaming_ok (enc : Frame → Bytes) (numWorkers batchSize : ℕ)
    (v : Video) (skip_frames : ℤ) (hs : skip_frames + 1 ≠ 0) :
    extract_frames_streaming enc numWorkers batchSize (some v) skip_frames =
      ⟨.ok (((enumFrom 0
                ((selectKept (skip_frames + 1) 0
                    (decodedFrames v.reads)).map Prod.snd)).map
               (fun p => (frameFilename6 p.1, Payload.bytes (enc p.2)))) ++
            [("metadata.json",
              Payload.jsonStr
                (streamingMetadata v
                  (selectKept (skip_frames + 1) 0
                    (decodedFrames v.reads)).length skip_frames))]),
       true⟩ := by
  simp only [extract_frames_streaming,
    extractLoop_eq enc numWorkers batchSize (skip_frames + 1) hs,
    process_frame_batch]
  simp [List.map_map, Function.comp]

/-! ### Canonical form of the fast-mode pipeline -/

lemma fastLoop_spec (enc : Frame → Bytes) (s M : ℤ) :
    ∀ (frames : List Frame) (idx ext : ℕ),
    (fastLoop enc s M (frames.map some) idx ext).1 =
      (enumFrom ext (((selectKept s idx frames).map Prod.snd).take
        (M - (ext : ℤ)).toNat)).map
        (fun p => (frameFilename4 p.1, enc p.2)) ∧
    (fastLoop enc s M (frames.map some) idx ext).2.1 =
      ext + (((selectKept s idx frames).map Prod.snd).take
        (M - (ext : ℤ)).toNat).length := by
  intro frames
  induction frames with
  | nil =>
      intro idx ext
      simp [fastLoop, selectKept, enumFrom]
  | cons f rest ih =>
      intro idx ext
      by_cases hM : M ≤ (ext : ℤ)
      · have h0 : (M - (ext : ℤ)).toNat = 0 := by omega
        simp [fastLoop, if_pos hM, h0, enumFrom]
      · by_cases hk : Int.fmod (idx : ℤ) s = 0
        · have h1 : (M - (ext : ℤ)).toNat =
              (M - ((ext : ℤ) + 1)).toNat + 1 := by omega
          have hcast : ((ext + 1 : ℕ) : ℤ) = (ext : ℤ) + 1 := by push_cast; rfl
          obtain ⟨ih1, ih2⟩ := ih (idx + 1) (ext + 1)
          rw [hcast] at ih1 ih2
          simp only [fastLoop, List.map_cons, if_neg hM, if_pos hk]
          constructor
          · simp [selectKept, hk, h1, enumFrom, ih1]
          · simp [selectKept, hk, h1, enumFrom, ih2]
            omega
        · obtain ⟨ih1, ih2⟩ := ih (idx + 1) ext
          simp only [fastLoop, List.map_cons, if_neg hM, if_neg hk]
          constructor
          · simp [selectKept, hk, ih1]
          · simp [selectKept, hk, ih2]

lemma enumFrom_map_snd {α : Type} :
    ∀ (l : List α) (k : ℕ), (enumFrom k l).map Prod.snd = l := by
  intro l
  induction l with
  | nil => intro k; simp [enumFrom]
  | cons a rest ih => intro k; simp [enumFrom, ih]

lemma fastLoop_reads_eq (enc : Frame → Bytes) (s M : ℤ) :
    ∀ (reads : List (Option Frame)) (idx ext : ℕ),
    fastLoop enc s M reads idx ext =
      fastLoop enc s M ((decodedFrames reads).map some) idx ext := by
  intro reads
  induction reads with
  | nil => intro idx ext; simp [decodedFrames]
  | cons r rest ih =>
      intro idx ext
      cases r with
      | none => simp [decodedFrames, fastLoop]
      | some f =>
          simp only [decodedFrames, List.map_cons, fastLoop, ih]

lemma fast_ok (enc : Frame → Bytes) (v : Video) (M : ℤ) (hM : M ≠ 0) :
    extract_frames_fast enc (some v) M =
      ⟨.ok (((enumFrom 0
                (((selectKept (fast_skip_factor v.total_frames M) 0
                    (decodedFrames v.reads)).map Prod.snd).take M.toNat)).map
               (fun p => (frameFilename4 p.1, Payload.bytes (enc p.2)))) ++
            [("metadata.json",
              Payload.jsonStr
                (fastMetadata v
                  (((selectKept (fast_skip_factor v.total_frames M) 0
                      (decodedFrames v.reads)).map Prod.snd).take
                    M.toNat).length
                  (fast_skip_factor v.total_frames M)))]),
       true⟩ := by
  obtain ⟨h1, h2⟩ := fastLoop_spec enc (fast_skip_factor v.total_frames M) M
    (decodedFrames v.reads) 0 0
  simp only [extract_frames_fast, if_neg hM,
    fastLoop_reads_eq enc (fast_skip_factor v.total_frames M) M v.reads 0 0,
    h1, h2]
  simp [List.map_map, Function.comp]

lemma zeroPad_length (w n : ℕ) : w ≤ (zeroPad w n).length := by
  simp only [zeroPad, String.length_append]
  have h : (String.mk (List.replicate (w - (toString n).length) '0')).length
      = w - (toString n).length := by
    rw [String.length_mk, List.length_replicate]
  omega

lemma frameFilename6_ne_metadata (i : ℕ) :
    frameFilename6 i ≠ "metadata.json" := by
  intro h
  have hlen := congrArg String.length h
  simp only [frameFilename6, String.length_append] at hlen
  have h6 := zeroPad_length 6 i
  have hf : ("frame_" : String).length = 6 := by rfl
  have hj : (".jpg" : String).length = 4 := by rfl
  have hm : ("metadata.json" : String).length = 13 := by rfl
  omega

lemma frameFilename4_ne_metadata (i : ℕ) :
    frameFilename4 i ≠ "metadata.json" := by
  intro h
  have hlen := congrArg String.length h
  simp only [frameFilename4, String.length_append] at hlen
  have h4 := zeroPad_length 4 i
  have hf : ("frame_" : String).length = 6 := by rfl
  have hj : (".jpg" : String).length = 4 := by rfl
  have hm : ("metadata.json" : String).length = 13 := by rfl
  omega

lemma fastLoop_calls_le (enc : Frame → Bytes) (s M : ℤ) :
    ∀ (reads : List (Option Frame)) (idx ext : ℕ), (ext : ℤ) ≤ M →
    (fastLoop enc s M reads idx ext).2.2 ≤
      specBudgetReadCalls s M reads idx ext + 1 ∧
    ((fastLoop enc s M reads idx ext).2.1 : ℤ) ≤ M := by
  intro reads
  induction reads with
  | nil =>
      intro idx ext hext
      refine ⟨?_, by simpa [fastLoop] using hext⟩
      simp only [fastLoop, specBudgetReadCalls]
      split
      · omega
      · omega
  | cons r rest ih =>
      intro idx ext hext
      cases r with
      | none =>
          refine ⟨?_, by simpa [fastLoop] using hext⟩
          simp only [fastLoop, specBudgetReadCalls]
          split
          · omega
          · omega
      | some f =>
          by_cases hM : M ≤ (ext : ℤ)
          · refine ⟨?_, by simpa [fastLoop, if_pos hM] using hext⟩
            simp [fastLoop, if_pos hM, specBudgetReadCalls, hM]
          · by_cases hk : Int.fmod (idx : ℤ) s = 0
            · obtain ⟨ih1, ih2⟩ := ih (idx + 1) (ext + 1) (by push_cast; omega)
              constructor
              · simp only [fastLoop, if_neg hM, if_pos hk,
                  specBudgetReadCalls, if_neg hM]
                omega
              · simpa [fastLoop, if_neg hM, if_pos hk] using ih2
            · obtain ⟨ih1, ih2⟩ := ih (idx + 1) ext hext
              constructor
              · simp only [fastLoop, if_neg hM, if_neg hk,
                  specBudgetReadCalls, if_neg hM]
                omega
              · simpa [fastLoop, if_neg hM, if_neg hk] using ih2

/-! ### Claims -/

/-- Claim C1: for every video whose decoder yields `T` frames and every
`skip_frames = k ≥ 0`, exhaustive mode keeps exactly the frames whose
source index is a multiple of `k + 1` in `[0, T)` (conjunct 2), assigns
`kept_index` as the contiguous counter `0, 1, …` over kept frames in
order (the `enumFrom 0` in conjunct 1), and with `k = 0` extracts all `T`
frames (conjunct 3). -/
theorem c1_exhaustive_skip_selection (enc : Frame → Bytes) (k : ℕ)
    (v : Video) :
    ((extract_frames_streaming enc 4 50 (some v) (k : ℤ)).result =
      .ok (((enumFrom 0 ((selectKept ((k : ℤ) + 1) 0
               (decodedFrames v.reads)).map Prod.snd)).map
             (fun p => (frameFilename6 p.1, Payload.bytes (enc p.2)))) ++
           [("metadata.json", Payload.jsonStr (streamingMetadata v
              (selectKept ((k : ℤ) + 1) 0 (decodedFrames v.reads)).length
              (k : ℤ)))])) ∧
    ((selectKept ((k : ℤ) + 1) 0 (decodedFrames v.reads)).map Prod.fst =
      (List.range (decodedFrames v.reads).length).filter
        (fun i => i % (k + 1) == 0)) ∧
    (k = 0 →
      (selectKept ((k : ℤ) + 1) 0 (decodedFrames v.reads)).length =
        (decodedFrames v.reads).length) := by
  have hs : (k : ℤ) + 1 ≠ 0 := by omega
  have hcast : ((k : ℤ) + 1) = ((k + 1 : ℕ) : ℤ) := by push_cast; rfl
  have hfst : (selectKept ((k : ℤ) + 1) 0 (decodedFrames v.reads)).map
      Prod.fst =
      (List.range (decodedFrames v.reads).length).filter
        (fun i => i % (k + 1) == 0) := by
    rw [hcast, selectKept_map_fst (k + 1) (decodedFrames v.reads) 0]
    simp
  refine ⟨?_, hfst, ?_⟩
  · rw [streaming_ok enc 4 50 v (k : ℤ) hs]
  · intro hk
    subst hk
    have hcount := congrArg List.length hfst
    rw [List.length_map] at hcount
    rw [hcount]
    simp [Nat.mod_one]

/-- Claim C3: the finished archive of exhaustive mode is independent of
the Encode Pool worker count and of the batch decomposition (conjunct 1:
any worker counts `w1, w2` and batch sizes `b1, b2` yield the identical
ordered `(filename, payload)` sequence), and its frame entries are
strictly ordered by `kept_index`: their names are
`frame_%06d` of `0, 1, …, n-1` in order (conjunct 2). -/
theorem c3_order_invariant_under_workers (enc : Frame → Bytes) (v : Video)
    (k : ℕ) (w1 w2 b1 b2 : ℕ) :
    (extract_frames_streaming enc w1 b1 (some v) (k : ℤ) =
      extract_frames_streaming enc w2 b2 (some v) (k : ℤ)) ∧
    ((frameEntriesOf (extract_frames_streaming enc w1 b1 (some v)
        (k : ℤ))).map Prod.fst =
      (List.range (selectKept ((k : ℤ) + 1) 0
        (decodedFrames v.reads)).length).map frameFilename6) := by
  have hs : (k : ℤ) + 1 ≠ 0 := by omega
  constructor
  · rw [streaming_ok enc w1 b1 v (k : ℤ) hs,
      streaming_ok enc w2 b2 v (k : ℤ) hs]
  · rw [streaming_ok enc w1 b1 v (k : ℤ) hs]
    simp only [frameEntriesOf, List.dropLast_concat, List.map_map]
    have h1 : ((enumFrom 0 ((selectKept ((k : ℤ) + 1) 0
        (decodedFrames v.reads)).map Prod.snd)).map
          (Prod.fst ∘ fun p => (frameFilename6 p.1, Payload.bytes (enc p.2))))
        = ((enumFrom 0 ((selectKept ((k : ℤ) + 1) 0
            (decodedFrames v.reads)).map Prod.snd)).map Prod.fst).map
              frameFilename6 := by
      simp [List.map_map, Function.comp]
    rw [h1, enumFrom_zero_map_fst, List.length_map]

/-- Claim C5: when the uploaded video cannot be opened, both modes fail
with the HTTP 400 client error, produce no archive, and the temporary
file is still deleted; moreover the temporary file is deleted on every
exit path of both modes, whatever the input and parameters. -/
theorem c5_unopenable_input_cleanup (enc : Frame → Bytes)
    (numWorkers batchSize : ℕ) (skip_frames max_frames : ℤ) :
    ((extract_frames_streaming enc numWorkers batchSize none
        skip_frames).result =
      .error (.httpException 400 "Could not open video file")) ∧
    ((extract_frames_fast enc none max_frames).result =
      .error (.httpException 400 "Could not open video file")) ∧
    ((extract_frames_streaming enc numWorkers batchSize none
        skip_frames).tempFileDeleted = true) ∧
    ((extract_frames_fast enc none max_frames).tempFileDeleted = true) ∧
    (∀ input : Option Video,
      (extract_frames_streaming enc numWorkers batchSize input
          skip_frames).tempFileDeleted = true ∧
      (extract_frames_fast enc input max_frames).tempFileDeleted = true) := by
  refine ⟨rfl, rfl, rfl, rfl, ?_⟩
  intro input
  cases input with
  | none => exact ⟨rfl, rfl⟩
  | some v =>
      constructor
      · cases h : extractLoop enc numWorkers batchSize (skip_frames + 1)
            (decodedFrames v.reads) 0 0 [] with
        | error e => simp [extract_frames_streaming, h]
        | ok p =>
            obtain ⟨entries, c⟩ := p
            simp [extract_frames_streaming, h]
      · by_cases hM : max_frames = 0
        · simp [extract_frames_fast, hM]
        · simp [extract_frames_fast, hM]

/-- Claim C9: a failing frame read after a successfully decoded prefix is
treated as normal end-of-stream: the request result is identical to the
one for a stream that simply ends after the prefix, and the request still
succeeds, finalizing the archive with the frames kept so far. -/
theorem c9_midstream_failure_is_eos (enc : Frame → Bytes)
    (numWorkers batchSize : ℕ) (v : Video) (good : List Frame)
    (rest : List (Option Frame)) (k : ℕ)
    (hreads : v.reads = good.map some ++ none :: rest) :
    (extract_frames_streaming enc numWorkers batchSize (some v) (k : ℤ) =
      extract_frames_streaming enc numWorkers batchSize
        (some { v with reads := good.map some }) (k : ℤ)) ∧
    (∃ entries,
      (extract_frames_streaming enc numWorkers batchSize (some v)
          (k : ℤ)).result = .ok entries) := by
  have hs : (k : ℤ) + 1 ≠ 0 := by omega
  constructor
  · rw [streaming_ok enc numWorkers batchSize v (k : ℤ) hs,
      streaming_ok enc numWorkers batchSize _ (k : ℤ) hs]
    simp [hreads, decodedFrames_append_none, decodedFrames_map_some,
      streamingMetadata]
  · rw [streaming_ok enc numWorkers batchSize v (k : ℤ) hs]
    exact ⟨_, rfl⟩

/-- Claim C9 witness: instantiation at a concrete 2-good-frame stream
with a mid-stream decode failure. -/
theorem c9_witness :
    (Video.mk ([7, 8].map some ++ none :: [some 9]) 10 4 64 48).reads =
      [7, 8].map some ++ none :: [some 9] ∧
    ((extract_frames_streaming id 4 50
        (some (Video.mk ([7, 8].map some ++ none :: [some 9]) 10 4 64 48))
        ((0 : ℕ) : ℤ) =
      extract_frames_streaming id 4 50
        (some { Video.mk ([7, 8].map some ++ none :: [some 9]) 10 4 64 48
                  with reads := [7, 8].map some }) ((0 : ℕ) : ℤ)) ∧
    (∃ entries,
      (extract_frames_streaming id 4 50
          (some (Video.mk ([7, 8].map some ++ none :: [some 9]) 10 4 64 48))
          ((0 : ℕ) : ℤ)).result = .ok entries)) :=
  ⟨rfl, c9_midstream_failure_is_eos id 4 50
    (Video.mk ([7, 8].map some ++ none :: [some 9]) 10 4 64 48)
    [7, 8] [some 9] 0 rfl⟩

/-- Claim C10: no boundary validation guards the arithmetic: fast mode
with `max_frames = 0` evaluates `total_frames // 0` and exhaustive mode
with `skip_frames = -1` evaluates `frame_idx % 0` on the first decoded
frame, so both requests fail with Python's `ZeroDivisionError` (not the
HTTP 400 validation error), and the temporary file is still removed. -/
theorem c10_unvalidated_arithmetic (enc : Frame → Bytes)
    (numWorkers batchSize : ℕ) (v : Video)
    (hne : decodedFrames v.reads ≠ []) :
    ((extract_frames_fast enc (some v) 0).result =
      .error .zeroDivisionError) ∧
    ((extract_frames_fast enc (some v) 0).tempFileDeleted = true) ∧
    ((extract_frames_streaming enc numWorkers batchSize (some v)
        (-1)).result = .error .zeroDivisionError) ∧
    ((extract_frames_streaming enc numWorkers batchSize (some v)
        (-1)).tempFileDeleted = true) ∧
    (∀ status detail,
      PyError.zeroDivisionError ≠ PyError.httpException status detail) := by
  obtain ⟨f, fs, hfs⟩ := List.exists_cons_of_ne_nil hne
  have h0 : (-1 : ℤ) + 1 = 0 := by norm_num
  refine ⟨rfl, rfl, ?_, ?_, ?_⟩
  · simp [extract_frames_streaming, hfs, extractLoop, h0]
  · simp [extract_frames_streaming, hfs, extractLoop, h0]
  · intro status detail h
    exact PyError.noConfusion h

/-- Claim C10 witness: instantiation at a concrete one-frame video. -/
theorem c10_witness :
    decodedFrames (Video.mk [some 5] 10 1 64 48).reads ≠ [] ∧
    ((extract_frames_fast id (some (Video.mk [some 5] 10 1 64 48)) 0).result
        = .error .zeroDivisionError ∧
     (extract_frames_fast id (some (Video.mk [some 5] 10 1 64 48))
        0).tempFileDeleted = true ∧
     (extract_frames_streaming id 4 50 (some (Video.mk [some 5] 10 1 64 48))
        (-1)).result = .error .zeroDivisionError ∧
     (extract_frames_streaming id 4 50 (some (Video.mk [some 5] 10 1 64 48))
        (-1)).tempFileDeleted = true ∧
     (∀ status detail,
       PyError.zeroDivisionError ≠ PyError.httpException status detail)) :=
  ⟨by simp [decodedFrames],
   c10_unvalidated_arithmetic id 4 50 (Video.mk [some 5] 10 1 64 48)
     (by simp [decodedFrames])⟩

lemma metadataOf_ok (entries : List (String × Payload)) (name : String)
    (md : Json) :
    metadataOf ⟨.ok (entries ++ [(name, Payload.jsonStr md)]), true⟩ =
      some md := by
  simp [metadataOf, List.getLast?_concat]

lemma frameEntriesOf_ok (entries : List (String × Payload))
    (e : String × Payload) :
    frameEntriesOf ⟨.ok (entries ++ [e]), true⟩ = entries := by
  simp [frameEntriesOf, List.dropLast_concat]

lemma streamingMetadata_lookup_extracted (v : Video) (n : ℕ) (k : ℤ) :
    (streamingMetadata v n k).lookup "extracted_frames" =
      some (.num (n : ℚ)) := rfl

lemma streamingMetadata_lookup_frames (v : Video) (n : ℕ) (k : ℤ) :
    (streamingMetadata v n k).lookup "frames" = none := rfl

lemma fastMetadata_lookup_extracted (v : Video) (n : ℕ) (s : ℤ) :
    (fastMetadata v n s).lookup "extracted_frames" =
      some (.num (n : ℚ)) := rfl

lemma fastMetadata_lookup_frames (v : Video) (n : ℕ) (s : ℤ) :
    (fastMetadata v n s).lookup "frames" =
      some (.arr ((List.range n).map (fastFrameRecord v.fps s))) := rfl

lemma fastFrameRecord_lookup_timestamp (fps : ℚ) (s : ℤ) (i : ℕ) :
    (fastFrameRecord fps s i).lookup "timestamp" =
      some (.num (if 0 < fps then ((i : ℚ) * (s : ℚ)) / fps else 0)) := rfl

/-- Claim C4: in both modes the produced archive consists of exactly the
frame entries followed by one final entry named `metadata.json` (so the
entry count is `extracted_frames + 1`), the metadata reports
`extracted_frames` equal to the number of frame entries, no frame entry
is named `metadata.json`, and a zero-frame extraction still yields an
archive with zero frame entries and the metadata entry. -/
theorem c4_archive_shape (enc : Frame → Bytes) (v : Video) (k : ℕ) (M : ℤ)
    (hM : M ≠ 0) :
    (∃ fr md,
      (extract_frames_streaming enc 4 50 (some v) (k : ℤ)).result =
        .ok (fr ++ [("metadata.json", Payload.jsonStr md)]) ∧
      md.lookup "extracted_frames" = some (.num ((fr.length : ℕ) : ℚ)) ∧
      (∀ e ∈ fr, e.1 ≠ "metadata.json") ∧
      (decodedFrames v.reads = [] → fr = [])) ∧
    (∃ fr md,
      (extract_frames_fast enc (some v) M).result =
        .ok (fr ++ [("metadata.json", Payload.jsonStr md)]) ∧
      md.lookup "extracted_frames" = some (.num ((fr.length : ℕ) : ℚ)) ∧
      (∀ e ∈ fr, e.1 ≠ "metadata.json") ∧
      (decodedFrames v.reads = [] → fr = [])) := by
  have hs : (k : ℤ) + 1 ≠ 0 := by omega
  constructor
  · refine ⟨(enumFrom 0 ((selectKept ((k : ℤ) + 1) 0
        (decodedFrames v.reads)).map Prod.snd)).map
          (fun p => (frameFilename6 p.1, Payload.bytes (enc p.2))),
      streamingMetadata v
        (selectKept ((k : ℤ) + 1) 0 (decodedFrames v.reads)).length (k : ℤ),
      ?_, ?_, ?_, ?_⟩
    · rw [streaming_ok enc 4 50 v (k : ℤ) hs]
    · rw [streamingMetadata_lookup_extracted]
      simp [List.length_map, enumFrom_length]
    · intro e he
      simp only [List.mem_map] at he
      obtain ⟨p, hp, rfl⟩ := he
      exact frameFilename6_ne_metadata p.1
    · intro h
      simp [h, selectKept, enumFrom]
  · refine ⟨(enumFrom 0 (((selectKept (fast_skip_factor v.total_frames M) 0
        (decodedFrames v.reads)).map Prod.snd).take M.toNat)).map
          (fun p => (frameFilename4 p.1, Payload.bytes (enc p.2))),
      fastMetadata v
        (((selectKept (fast_skip_factor v.total_frames M) 0
            (decodedFrames v.reads)).map Prod.snd).take M.toNat).length
        (fast_skip_factor v.total_frames M),
      ?_, ?_, ?_, ?_⟩
    · rw [fast_ok enc v M hM]
    · rw [fastMetadata_lookup_extracted]
      simp [List.length_map, enumFrom_length]
    · intro e he
      simp only [List.mem_map] at he
      obtain ⟨p, hp, rfl⟩ := he
      exact frameFilename4_ne_metadata p.1
    · intro h
      simp [h, selectKept, enumFrom]

/-- Claim C4 witness: instantiation at a concrete zero-frame video with
`k = 0` and `max_frames = 1`, exercising the empty-extraction case. -/
theorem c4_archive_shape_witness :
    (1 : ℤ) ≠ 0 ∧
    ((∃ fr md,
      (extract_frames_streaming id 4 50 (some (Video.mk [] 1 0 1 1))
          ((0 : ℕ) : ℤ)).result =
        .ok (fr ++ [("metadata.json", Payload.jsonStr md)]) ∧
      md.lookup "extracted_frames" = some (.num ((fr.length : ℕ) : ℚ)) ∧
      (∀ e ∈ fr, e.1 ≠ "metadata.json") ∧
      (decodedFrames (Video.mk [] 1 0 1 1).reads = [] → fr = [])) ∧
    (∃ fr md,
      (extract_frames_fast id (some (Video.mk [] 1 0 1 1)) 1).result =
        .ok (fr ++ [("metadata.json", Payload.jsonStr md)]) ∧
      md.lookup "extracted_frames" = some (.num ((fr.length : ℕ) : ℚ)) ∧
      (∀ e ∈ fr, e.1 ≠ "metadata.json") ∧
      (decodedFrames (Video.mk [] 1 0 1 1).reads = [] → fr = []))) :=
  ⟨by norm_num,
   c4_archive_shape id (Video.mk [] 1 0 1 1) 0 1 (by norm_num)⟩

/-- Claim C2: for a video whose metadata frame count matches the `T`
frames the decoder yields and `max_frames = M ≥ 1`, fast mode computes
`skip_factor = max(1, T // M)` (conjunct 1), keeps frames whose source
index is a multiple of the skip factor (conjunct 2), and finishes with
`extracted_frames = min(M, ceil(T / skip_factor))` both as the number of
frame entries (conjunct 3) and in the reported metadata (conjunct 4). -/
theorem c2_fast_mode_budget (enc : Frame → Bytes) (v : Video)
    (framesList : List Frame) (M : ℤ) (hM : 1 ≤ M)
    (hreads : v.reads = framesList.map some)
    (hT : v.total_frames = (framesList.length : ℤ)) :
    (fast_skip_factor v.total_frames M =
      max 1 (Int.fdiv v.total_frames M)) ∧
    ((selectKept (fast_skip_factor v.total_frames M) 0 framesList).map
        Prod.fst =
      (List.range framesList.length).filter
        (fun i => i % (fast_skip_factor v.total_frames M).toNat == 0)) ∧
    ((frameEntriesOf (extract_frames_fast enc (some v) M)).length =
      min M.toNat (ceilNat framesList.length
        (fast_skip_factor v.total_frames M).toNat)) ∧
    ((metadataOf (extract_frames_fast enc (some v) M)).bind
        (fun md => md.lookup "extracted_frames") =
      some (.num ((min M.toNat (ceilNat framesList.length
        (fast_skip_factor v.total_frames M).toNat) : ℕ) : ℚ))) := by
  have hM0 : M ≠ 0 := by omega
  have hs1 : (1 : ℤ) ≤ fast_skip_factor v.total_frames M := le_max_left _ _
  have hsnat : (((fast_skip_factor v.total_frames M).toNat : ℕ) : ℤ) =
      fast_skip_factor v.total_frames M := Int.toNat_of_nonneg (by omega)
  have hdec : decodedFrames v.reads = framesList := by
    rw [hreads, decodedFrames_map_some]
  have hfst : (selectKept (fast_skip_factor v.total_frames M) 0
      framesList).map Prod.fst =
      (List.range framesList.length).filter
        (fun i => i % (fast_skip_factor v.total_frames M).toNat == 0) := by
    conv_lhs => rw [← hsnat]
    rw [selectKept_map_fst ((fast_skip_factor v.total_frames M).toNat)
      framesList 0]
    simp
  have hcount : (selectKept (fast_skip_factor v.total_frames M) 0
      framesList).length = ceilNat framesList.length
        (fast_skip_factor v.total_frames M).toNat := by
    have h := congrArg List.length hfst
    rw [List.length_map] at h
    rw [h, length_filter_range_mod _ (by omega)]
  refine ⟨rfl, hfst, ?_, ?_⟩
  · rw [fast_ok enc v M hM0, hdec, frameEntriesOf_ok]
    simp [List.length_map, enumFrom_length, List.length_take, hcount]
  · rw [fast_ok enc v M hM0, hdec, metadataOf_ok]
    simp only [Option.some_bind]
    rw [fastMetadata_lookup_extracted]
    simp [List.length_take, List.length_map, hcount]

/-- Claim C2 witness: instantiation at a concrete 5-frame video with
`max_frames = 2`, where `skip_factor = 2` and
`extracted_frames = min(2, ceil(5/2)) = 2`. -/
theorem c2_fast_mode_budget_witness :
    (1 : ℤ) ≤ 2 ∧
    (Video.mk ((List.range 5).map some) 1 5 1 1).reads =
      (List.range 5).map some ∧
    (Video.mk ((List.range 5).map some) 1 5 1 1).total_frames =
      ((List.range 5).length : ℤ) ∧
    ((fast_skip_factor
        (Video.mk ((List.range 5).map some) 1 5 1 1).total_frames 2 =
      max 1 (Int.fdiv
        (Video.mk ((List.range 5).map some) 1 5 1 1).total_frames 2)) ∧
    ((selectKept (fast_skip_factor
        (Video.mk ((List.range 5).map some) 1 5 1 1).total_frames 2) 0
        (List.range 5)).map Prod.fst =
      (List.range (List.range 5).length).filter
        (fun i => i % (fast_skip_factor
          (Video.mk ((List.range 5).map some) 1 5 1 1).total_frames
            2).toNat == 0)) ∧
    ((frameEntriesOf (extract_frames_fast id
        (some (Video.mk ((List.range 5).map some) 1 5 1 1)) 2)).length =
      min (2 : ℤ).toNat (ceilNat (List.range 5).length
        (fast_skip_factor
          (Video.mk ((List.range 5).map some) 1 5 1 1).total_frames
            2).toNat)) ∧
    ((metadataOf (extract_frames_fast id
        (some (Video.mk ((List.range 5).map some) 1 5 1 1)) 2)).bind
        (fun md => md.lookup "extracted_frames") =
      some (.num ((min (2 : ℤ).toNat (ceilNat (List.range 5).length
        (fast_skip_factor
          (Video.mk ((List.range 5).map some) 1 5 1 1).total_frames
            2).toNat) : ℕ) : ℚ)))) :=
  ⟨by norm_num, rfl, by simp,
   c2_fast_mode_budget id (Video.mk ((List.range 5).map some) 1 5 1 1)
     (List.range 5) 2 (by norm_num) rfl (by simp)⟩

/-- Claim C8: fast-mode metadata contains a `frames` array with one
record per kept frame (conjunct 1), where record `i` carries
`frame_index = i`, `filename = frame_%04d.jpg` of `i`, and
`timestamp = (i * skip_factor) / fps` when `fps > 0`, else `0.0`
(conjunct 2); in particular for 1000 source frames and
`max_frames = 100`: `skip_factor = 10`, `extracted_frames = 100`, and
`frames[5].timestamp = 50 / fps` (conjunct 3). -/
theorem c8_fast_metadata_records (enc : Frame → Bytes) (v : Video)
    (framesList : List Frame) (M : ℤ) (hM : 1 ≤ M)
    (hreads : v.reads = framesList.map some)
    (hT : v.total_frames = (framesList.length : ℤ)) :
    ((metadataOf (extract_frames_fast enc (some v) M)).bind
        (fun md => md.lookup "frames") =
      some (.arr ((List.range
        ((((selectKept (fast_skip_factor v.total_frames M) 0
            framesList).map Prod.snd).take M.toNat).length)).map
        (fastFrameRecord v.fps (fast_skip_factor v.total_frames M))))) ∧
    (∀ i : ℕ,
      fastFrameRecord v.fps (fast_skip_factor v.total_frames M) i =
        .obj [("frame_index", .num (i : ℚ)),
              ("timestamp", .num (if 0 < v.fps then
                ((i : ℚ) * ((fast_skip_factor v.total_frames M : ℤ) : ℚ)) /
                  v.fps else 0)),
              ("filename", .str (frameFilename4 i))]) ∧
    (framesList.length = 1000 → M = 100 → 0 < v.fps →
      fast_skip_factor v.total_frames M = 10 ∧
      (((selectKept (fast_skip_factor v.total_frames M) 0
          framesList).map Prod.snd).take M.toNat).length = 100 ∧
      ((((metadataOf (extract_frames_fast enc (some v) M)).bind
          (fun md => md.lookup "frames")).bind
          (fun a => a.index 5)).bind
          (fun r => r.lookup "timestamp") =
        some (.num (50 / v.fps)))) := by
  have hM0 : M ≠ 0 := by omega
  have hdec : decodedFrames v.reads = framesList := by
    rw [hreads, decodedFrames_map_some]
  have hframes : (metadataOf (extract_frames_fast enc (some v) M)).bind
      (fun md => md.lookup "frames") =
      some (.arr ((List.range
        ((((selectKept (fast_skip_factor v.total_frames M) 0
            framesList).map Prod.snd).take M.toNat).length)).map
        (fastFrameRecord v.fps (fast_skip_factor v.total_frames M)))) := by
    rw [fast_ok enc v M hM0, hdec, metadataOf_ok]
    simp only [Option.some_bind]
    rw [fastMetadata_lookup_frames]
  refine ⟨hframes, fun i => rfl, ?_⟩
  intro h1000 hM100 hfps
  subst hM100
  have hTn : v.total_frames = (1000 : ℤ) := by
    rw [hT, h1000]
    norm_num
  have hsf : fast_skip_factor v.total_frames 100 = 10 := by
    rw [hTn]
    decide
  have hcount : (((selectKept (fast_skip_factor v.total_frames 100) 0
      framesList).map Prod.snd).take (100 : ℤ).toNat).length = 100 := by
    have hs1 : (1 : ℤ) ≤ fast_skip_factor v.total_frames 100 :=
      le_max_left _ _
    have hsnat : (((fast_skip_factor v.total_frames 100).toNat : ℕ) : ℤ) =
        fast_skip_factor v.total_frames 100 := Int.toNat_of_nonneg (by omega)
    have hfst : (selectKept (fast_skip_factor v.total_frames 100) 0
        framesList).map Prod.fst =
        (List.range framesList.length).filter
          (fun i => i % (fast_skip_factor v.total_frames 100).toNat == 0) := by
      conv_lhs => rw [← hsnat]
      rw [selectKept_map_fst ((fast_skip_factor v.total_frames 100).toNat)
        framesList 0]
      simp
    have hlen := congrArg List.length hfst
    rw [List.length_map, length_filter_range_mod _ (by omega)] at hlen
    have h10 : (fast_skip_factor v.total_frames 100).toNat = 10 := by
      rw [hsf]
      rfl
    rw [List.length_take, List.length_map, hlen, h10, h1000]
    decide
  refine ⟨hsf, hcount, ?_⟩
  rw [hframes]
  simp only [Option.some_bind, Json.index]
  rw [hcount]
  have hget : ((List.range 100).map
      (fastFrameRecord v.fps (fast_skip_factor v.total_frames 100))).get? 5 =
      some (fastFrameRecord v.fps (fast_skip_factor v.total_frames 100) 5) := by
    rw [List.get?_map, List.get?_eq_getElem?, List.getElem?_range (by omega)]
    rfl
  rw [hget]
  simp only [Option.some_bind]
  rw [fastFrameRecord_lookup_timestamp, hsf, if_pos hfps]
  norm_num

set_option maxRecDepth 4000 in
/-- Claim C8 witness: instantiation at a concrete 1000-frame, 30 fps
video with `max_frames = 100`. -/
theorem c8_fast_metadata_records_witness :
    (1 : ℤ) ≤ 100 ∧ (0 : ℚ) < 30 ∧
    (((metadataOf (extract_frames_fast id
        (some (Video.mk ((List.range 1000).map some) 30 1000 64 48))
        100)).bind (fun md => md.lookup "frames") =
      some (.arr ((List.range
        ((((selectKept (fast_skip_factor
            (Video.mk ((List.range 1000).map some) 30 1000 64 48).total_frames
              100) 0 (List.range 1000)).map Prod.snd).take
            (100 : ℤ).toNat).length)).map
        (fastFrameRecord
          (Video.mk ((List.range 1000).map some) 30 1000 64 48).fps
          (fast_skip_factor
            (Video.mk ((List.range 1000).map some) 30 1000 64 48).total_frames
            100))))) ∧
    (∀ i : ℕ,
      fastFrameRecord
          (Video.mk ((List.range 1000).map some) 30 1000 64 48).fps
          (fast_skip_factor
            (Video.mk ((List.range 1000).map some) 30 1000 64 48).total_frames
            100) i =
        .obj [("frame_index", .num (i : ℚ)),
              ("timestamp", .num (if 0 <
                  (Video.mk ((List.range 1000).map some) 30 1000 64 48).fps
                then ((i : ℚ) * ((fast_skip_factor
                  (Video.mk ((List.range 1000).map some) 30 1000
                    64 48).total_frames 100 : ℤ) : ℚ)) /
                  (Video.mk ((List.range 1000).map some) 30 1000 64 48).fps
                else 0)),
              ("filename", .str (frameFilename4 i))]) ∧
    ((List.range 1000).length = 1000 → (100 : ℤ) = 100 →
      0 < (Video.mk ((List.range 1000).map some) 30 1000 64 48).fps →
      fast_skip_factor
        (Video.mk ((List.range 1000).map some) 30 1000 64 48).total_frames
        100 = 10 ∧
      (((selectKept (fast_skip_factor
          (Video.mk ((List.range 1000).map some) 30 1000 64 48).total_frames
            100) 0 (List.range 1000)).map Prod.snd).take
          (100 : ℤ).toNat).length = 100 ∧
      ((((metadataOf (extract_frames_fast id
          (some (Video.mk ((List.range 1000).map some) 30 1000 64 48))
          100)).bind (fun md => md.lookup "frames")).bind
          (fun a => a.index 5)).bind
          (fun r => r.lookup "timestamp") =
        some (.num (50 /
          (Video.mk ((List.range 1000).map some) 30 1000 64 48).fps))))) :=
  ⟨by norm_num, by norm_num,
   c8_fast_metadata_records id
     (Video.mk ((List.range 1000).map some) 30 1000 64 48)
     (List.range 1000) 100 (by norm_num) rfl (by simp)⟩

/-- A 3-decodable-frame video whose stream metadata reports 3 frames,
used for the fast-mode early-termination analysis. -/
def c6video : Video := ⟨[some 0, some 1, some 2], 10, 3, 64, 48⟩

/-- Claim C6 counterexample: with `max_frames = 1` on `c6video` the cap
is reached by the 1st read (`skip_factor = 3`, frame 0 is kept), and a
Selector that stops pulling the moment the cap is reached would perform
exactly 1 `cap.read()` — but the code performs 2: the loop calls
`cap.read()` once more and only then breaks, so the decoder is asked to
decode one further frame, contradicting the claim. -/
theorem c6_counterexample :
    fast_skip_factor c6video.total_frames 1 = 3 ∧
    fastReadCalls id c6video 1 = 2 ∧
    specBudgetReadCalls (fast_skip_factor c6video.total_frames 1) 1
      c6video.reads 0 0 = 1 ∧
    (2 : ℕ) ≠ 1 := by
  refine ⟨by decide, ?_, by decide, by decide⟩
  rfl

/-- Claim C6 (amended): in fast mode, once the number of kept frames
reaches `max_frames` at most one further frame is pulled from the
decoder — the loop performs at most one `cap.read()` beyond what a
Selector that stops immediately at the cap would perform — and the count
of kept frames never exceeds `max_frames`. -/
theorem c6_amended_read_cap (enc : Frame → Bytes) (v : Video) (M : ℤ)
    (hM : 1 ≤ M) :
    (fastReadCalls enc v M ≤
      specBudgetReadCalls (fast_skip_factor v.total_frames M) M v.reads 0 0
        + 1) ∧
    (((fastLoop enc (fast_skip_factor v.total_frames M) M
        v.reads 0 0).2.1 : ℤ) ≤ M) :=
  fastLoop_calls_le enc (fast_skip_factor v.total_frames M) M v.reads 0 0
    (by omega)

/-- Claim C6 (amended) witness: instantiation at a concrete 2-frame
video with `max_frames = 1`. -/
theorem c6_amended_read_cap_witness :
    (1 : ℤ) ≤ 1 ∧
    ((fastReadCalls id (Video.mk [some 4, some 5] 5 2 1 1) 1 ≤
      specBudgetReadCalls
        (fast_skip_factor (Video.mk [some 4, some 5] 5 2 1 1).total_frames 1)
        1 (Video.mk [some 4, some 5] 5 2 1 1).reads 0 0 + 1) ∧
    (((fastLoop id
        (fast_skip_factor (Video.mk [some 4, some 5] 5 2 1 1).total_frames 1)
        1 (Video.mk [some 4, some 5] 5 2 1 1).reads 0 0).2.1 : ℤ) ≤ 1)) :=
  ⟨by norm_num,
   c6_amended_read_cap id (Video.mk [some 4, some 5] 5 2 1 1) 1
     (by norm_num)⟩

/-- The 100-frame, 10 fps video of the exhaustive-mode scenario; the
frame payloads are their own source indices `0, …, 99`. -/
def c7video : Video := ⟨(List.range 100).map some, 10, 100, 640, 480⟩

/-- Claim C7 counterexample: running exhaustive mode with
`skip_frames = 1` on the 100-frame, 10 fps video, the produced
`metadata.json` has no `frames` array at all (its fields are `fps,
total_frames, extracted_frames, width, height, skip_frames`), so
`frames[1].timestamp` does not exist — the claim's assertion that it
equals `0.2` is false. -/
theorem c7_counterexample :
    ((((metadataOf (extract_frames_streaming id 4 50 (some c7video)
          1)).bind (fun md => md.lookup "frames")).bind
          (fun a => a.index 1)).bind (fun r => r.lookup "timestamp")) =
      none ∧
    ∀ q : ℚ, (none : Option Json) ≠ some (.num q) := by
  constructor
  · rw [streaming_ok id 4 50 c7video 1 (by norm_num), metadataOf_ok]
    rfl
  · intro q h
    exact Option.noConfusion h

lemma entries_map_fst (enc : Frame → Bytes) (l : List Frame) :
    ((enumFrom 0 l).map
      (fun p => (frameFilename6 p.1, Payload.bytes (enc p.2)))).map
        Prod.fst = (List.range l.length).map frameFilename6 := by
  rw [List.map_map]
  have h : (Prod.fst ∘
      fun p : ℕ × Frame => (frameFilename6 p.1, Payload.bytes (enc p.2)))
      = frameFilename6 ∘ Prod.fst := rfl
  rw [h, ← List.map_map, enumFrom_zero_map_fst]

lemma entries_map_snd (enc : Frame → Bytes) (l : List Frame) :
    ((enumFrom 0 l).map
      (fun p => (frameFilename6 p.1, Payload.bytes (enc p.2)))).map
        Prod.snd = l.map (fun f => Payload.bytes (enc f)) := by
  rw [List.map_map]
  have h : (Prod.snd ∘
      fun p : ℕ × Frame => (frameFilename6 p.1, Payload.bytes (enc p.2)))
      = (fun f => Payload.bytes (enc f)) ∘ Prod.snd := rfl
  rw [h, ← List.map_map, enumFrom_map_snd]

/-- Claim C7 (amended): for the 100-frame, 10 fps video in exhaustive
mode with `skip_frames = 1`, the kept source indices are exactly
`{0, 2, …, 98}` (conjunct 3), the archive holds the 50 frame entries
`frame_%06d.jpg` of `0..49` carrying those even-index frames
(conjuncts 1–2), and `metadata.json` reports `extracted_frames = 50`
(conjunct 4); the exhaustive-mode metadata contains no `frames` array,
so no per-frame timestamp is reported (conjunct 5). -/
theorem c7_amended_scenario :
    ((frameEntriesOf (extract_frames_streaming id 4 50 (some c7video)
        1)).map Prod.fst = (List.range 50).map frameFilename6) ∧
    ((frameEntriesOf (extract_frames_streaming id 4 50 (some c7video)
        1)).map Prod.snd =
      (List.range 50).map (fun i => Payload.bytes (2 * i))) ∧
    ((selectKept ((1 : ℤ) + 1) 0 (decodedFrames c7video.reads)).map
        Prod.fst = (List.range 100).filter (fun i => i % 2 == 0)) ∧
    ((metadataOf (extract_frames_streaming id 4 50 (some c7video) 1)).bind
        (fun md => md.lookup "extracted_frames") =
      some (.num (50 : ℚ))) ∧
    ((metadataOf (extract_frames_streaming id 4 50 (some c7video) 1)).bind
        (fun md => md.lookup "frames") = none) := by
  have hdec : decodedFrames c7video.reads = List.range 100 := by
    show decodedFrames ((List.range 100).map some) = _
    exact decodedFrames_map_some _
  have h2 : ((1 : ℤ) + 1) = 2 := by norm_num
  have hsel_fst : (selectKept (2 : ℤ) 0 (List.range 100)).map Prod.fst =
      (List.range 100).filter (fun i => i % 2 == 0) := by decide
  have hsel_snd : (selectKept (2 : ℤ) 0 (List.range 100)).map Prod.snd =
      (List.range 50).map (fun i => 2 * i) := by decide
  have hsel_len : (selectKept (2 : ℤ) 0 (List.range 100)).length = 50 := by
    decide
  refine ⟨?_, ?_, ?_, ?_, ?_⟩
  · rw [streaming_ok id 4 50 c7video 1 (by norm_num), frameEntriesOf_ok,
      hdec, h2, hsel_snd, entries_map_fst]
    simp
  · rw [streaming_ok id 4 50 c7video 1 (by norm_num), frameEntriesOf_ok,
      hdec, h2, hsel_snd, entries_map_snd, List.map_map]
    simp [Function.comp]
  · rw [hdec, h2]
    exact hsel_fst
  · rw [streaming_ok id 4 50 c7video 1 (by norm_num), metadataOf_ok]
    simp only [Option.some_bind]
    rw [streamingMetadata_lookup_extracted, hdec, h2, hsel_len]
    norm_num
  · rw [streaming_ok id 4 50 c7video 1 (by norm_num), metadataOf_ok]
    simp only [Option.some_bind]
    exact streamingMetadata_lookup_frames c7video _ 1
